import Mathlib

/-!
Shallow embedding of the buffer pool manager core of the repository
(src/src/buffer/buffer_pool_manager.cpp): the `cmudb::BufferPoolManager`
(FetchPage, UnpinPage, FlushPage, FlushAllPages, DeletePage, NewPage and
the private helpers releaseDirty / allocatePage) and the `cmudb::LRUReplacer`
(Insert, Victim, Erase, Size).

Modelling decisions, stated once:

* A frame handle (a `Page *` in the source) is a `Nat` index into the pool's
  frame array, which is modelled as a total function `Nat → Page`.
* `page_id_t` is `Int`; the sentinel `INVALID_PAGE_ID` is `-1`
  (modelled from the spec: the page identifier type and sentinel live in a
  header that is not part of the provided source; the spec calls it an
  opaque integer with one reserved sentinel value).
* The `ExtendibleHash<page_id_t, Page *>` page table and the
  `std::map<page_id_t, Page *>` dirty set are both association lists with
  the usual find / insert-or-assign / erase-by-key operations; none of the
  verified claims depends on iteration order of the dirty map beyond what
  is proved (FlushAllPages is handled entry by entry).
* The `LRUReplacer` keeps a `std::list` plus a hash index `_id2node` whose
  key set always mirrors the list's contents; the model keeps the list
  only, and the `Victim` emptiness test on `_id2node` becomes the emptiness
  test on the list.
* Disk-manager effects are made observable: `WritePage` updates a disk map
  and appends to a write log, `AllocatePage` is a monotone counter,
  `DeallocatePage` appends to a log, `ReadPage` reads the disk map.
* In `FlushPage` the source dereferences the `Page *` handle (inside the
  asserts and in `page->IsDirty()` reached with `found` true) before and
  after checking the found flag; a dereference of the still-null handle,
  and a failing assert, are modelled as the `none` outcome of
  `Option (Bool × BPM)`.
-/

namespace cmudb

abbrev PageId := Int

/-- Modelled from the spec: the reserved sentinel page identifier
(`INVALID_PAGE_ID` in the missing header); an opaque integer that is never
a valid page, here `-1`. -/
def INVALID_PAGE_ID : PageId := -1

/-- One in-memory frame (`class Page` of the source): byte buffer, current
page identifier, pin count, dirty flag. -/
structure Page where
  page_id : PageId
  pin_count : Int
  is_dirty : Bool
  data : List Nat
deriving DecidableEq, Repr

/-- Modelled from the spec: `Page::Reset()` (the page header is not part of
the provided source). The spec: reset clears the buffer, the pin count and
the dirty flag, and a free frame's identifier is `INVALID_PAGE_ID`. -/
def resetPage : Page :=
  { page_id := INVALID_PAGE_ID, pin_count := 0, is_dirty := false, data := [] }

/-- Association-list find: `ExtendibleHash::Find` / `std::map::find`. -/
def assocFind : List (PageId × Nat) → PageId → Option Nat
  | [], _ => none
  | e :: es, k => if e.1 = k then some e.2 else assocFind es k

/-- Association-list insert-or-assign: `ExtendibleHash::Insert` /
`std::map::operator[]` assignment. -/
def assocInsert : List (PageId × Nat) → PageId → Nat → List (PageId × Nat)
  | [], k, v => [(k, v)]
  | e :: es, k, v => if e.1 = k then (k, v) :: es else e :: assocInsert es k v

/-- Association-list erase by key: `ExtendibleHash::Remove` /
`std::map::erase(key)`. -/
def assocErase : List (PageId × Nat) → PageId → List (PageId × Nat)
  | [], _ => []
  | e :: es, k => if e.1 = k then assocErase es k else e :: assocErase es k

namespace LRUReplacer

/-- `LRUReplacer::Insert`: erase the existing occurrence if the value is
present (via `_id2node`), then prepend at the front of `_list`. -/
def Insert {T : Type} [DecidableEq T] (l : List T) (v : T) : List T :=
  v :: l.erase v

/-- `LRUReplacer::Victim`: if empty return failure, otherwise remove and
return the back of `_list`. -/
def Victim {T : Type} (l : List T) : Option (T × List T) :=
  match l.getLast? with
  | none => none
  | some v => some (v, l.dropLast)

/-- `LRUReplacer::Erase`: remove the value if present, reporting whether a
removal occurred. -/
def Erase {T : Type} [DecidableEq T] (l : List T) (v : T) : Bool × List T :=
  if v ∈ l then (true, l.erase v) else (false, l)

/-- `LRUReplacer::Size`. -/
def Size {T : Type} (l : List T) : Nat := l.length

end LRUReplacer

/-- The buffer pool manager state: frame array, page table, free list,
LRU replacer list (front = most recent), dirty set, and the observable
disk-manager state (disk contents, write log, allocation counter,
deallocation log). -/
structure BPM where
  frames : Nat → Page
  pool_size : Nat
  page_table : List (PageId × Nat)
  free_list : List Nat
  lru : List Nat
  dirty_pages : List (PageId × Nat)
  disk : PageId → List Nat
  writes : List (PageId × List Nat)
  next_page_id : PageId
  deallocated : List PageId

/-- Point update of the frame array. -/
def updFrame (fr : Nat → Page) (i : Nat) (p : Page) : Nat → Page :=
  fun j => if j = i then p else fr j

/-- Point update of the disk map (`DiskManager::WritePage` target). -/
def updDisk (d : PageId → List Nat) (k : PageId) (bytes : List Nat) :
    PageId → List Nat :=
  fun j => if j = k then bytes else d j

/-- The constructor `BufferPoolManager::BufferPoolManager`: all frames are
default-constructed and pushed onto the free list in index order; the
disk contents are a parameter (the backing file handed to the disk
manager). -/
def initPool (pool_size : Nat) (disk0 : PageId → List Nat) : BPM :=
  { frames := fun _ => resetPage
    pool_size := pool_size
    page_table := []
    free_list := List.range pool_size
    lru := []
    dirty_pages := []
    disk := disk0
    writes := []
    next_page_id := 0
    deallocated := [] }

/-- `BufferPoolManager::releaseDirty`: if the victim frame is dirty, write
it back via the disk manager and clear the dirty flag; then remove its
page identifier from the page table. (The source does not touch
`dirty_pages_` here.) -/
def releaseDirty (s : BPM) (f : Nat) : BPM :=
  let p := s.frames f
  let s1 :=
    if p.is_dirty then
      { s with disk := updDisk s.disk p.page_id p.data
               writes := s.writes ++ [(p.page_id, p.data)]
               frames := updFrame s.frames f { p with is_dirty := false } }
    else s
  { s1 with page_table := assocErase s1.page_table (s1.frames f).page_id }

/-- Tail of `FetchPage` (and, with the allocated id, of `allocatePage`)
after a frame has been acquired: `Reset`, `SetPageId`, `IncreasePinCount`,
`ReadPage` into the buffer, insert into the page table. -/
def finishFetch (s : BPM) (f : Nat) (page_id : PageId) : BPM :=
  let p : Page :=
    { page_id := page_id, pin_count := 1, is_dirty := false
      data := s.disk page_id }
  { s with frames := updFrame s.frames f p
           page_table := assocInsert s.page_table page_id f }

/-- `BufferPoolManager::FetchPage`. Returns the frame handle on success. -/
def FetchPage (s : BPM) (page_id : PageId) : Option Nat × BPM :=
  if page_id = INVALID_PAGE_ID then (none, s)
  else
    match assocFind s.page_table page_id with
    | some f =>
      let p := s.frames f
      let p' := { p with pin_count := p.pin_count + 1 }
      (some f, { s with frames := updFrame s.frames f p' })
    | none =>
      match s.free_list, LRUReplacer.Victim s.lru with
      | f :: rest, _ =>
        (some f, finishFetch { s with free_list := rest } f page_id)
      | [], some (f, lru') =>
        (some f, finishFetch (releaseDirty { s with lru := lru' } f) f page_id)
      | [], none => (none, s)

/-- `BufferPoolManager::UnpinPage`. -/
def UnpinPage (s : BPM) (page_id : PageId) (d : Bool) : Bool × BPM :=
  match assocFind s.page_table page_id with
  | none => (false, s)
  | some f =>
    let p := s.frames f
    if 0 < p.pin_count then
      let p' := { p with pin_count := p.pin_count - 1 }
      if p'.pin_count = 0 then
        let p'' := if d then { p' with is_dirty := true } else p'
        (true,
          { s with frames := updFrame s.frames f p''
                   dirty_pages :=
                     if d then assocInsert s.dirty_pages page_id f
                     else s.dirty_pages
                   lru := LRUReplacer.Insert s.lru f })
      else (true, { s with frames := updFrame s.frames f p' })
    else (false, s)

/-- `BufferPoolManager::FlushPage`. The source dereferences the `Page *`
handle in its asserts before checking the found flag; when the page is
absent the handle is still null, and that dereference - and any failing
assert - is the `none` outcome. -/
def FlushPage (s : BPM) (page_id : PageId) : Option (Bool × BPM) :=
  if page_id = INVALID_PAGE_ID then some (false, s)
  else
    match assocFind s.page_table page_id with
    | none => none
    | some f =>
      let p := s.frames f
      if p.page_id = page_id ∧ p.page_id ≠ INVALID_PAGE_ID then
        if p.is_dirty then
          match assocFind s.dirty_pages page_id with
          | none => none
          | some _ =>
            some (true,
              { s with disk := updDisk s.disk page_id p.data
                       writes := s.writes ++ [(page_id, p.data)]
                       frames := updFrame s.frames f { p with is_dirty := false }
                       dirty_pages := assocErase s.dirty_pages page_id })
        else some (false, s)
      else none

/-- One iteration of the `std::for_each` body in
`BufferPoolManager::FlushAllPages`: if the entry's frame is still dirty,
write it back and clear its flag. -/
def flushEntry (s : BPM) (e : PageId × Nat) : BPM :=
  let p := s.frames e.2
  if p.is_dirty then
    { s with disk := updDisk s.disk e.1 p.data
             writes := s.writes ++ [(e.1, p.data)]
             frames := updFrame s.frames e.2 { p with is_dirty := false } }
  else s

/-- `BufferPoolManager::FlushAllPages`: iterate the dirty set, then clear
it. -/
def FlushAllPages (s : BPM) : BPM :=
  let s' := List.foldl flushEntry s s.dirty_pages
  { s' with dirty_pages := [] }

/-- `BufferPoolManager::DeletePage`. Note the source returns `false` on
every path, including the successful delete. -/
def DeletePage (s : BPM) (page_id : PageId) : Bool × BPM :=
  match assocFind s.page_table page_id with
  | none => (false, s)
  | some f =>
    if (s.frames f).pin_count = 0 then
      let s1 := { s with page_table := assocErase s.page_table page_id }
      let s2 := { s1 with lru := (LRUReplacer.Erase s1.lru f).2 }
      let s3 := { s2 with dirty_pages := assocErase s2.dirty_pages page_id }
      let s4 := { s3 with deallocated := s3.deallocated ++ [page_id] }
      let s5 := { s4 with frames := updFrame s4.frames f resetPage }
      (false, { s5 with free_list := s5.free_list ++ [f] })
    else (false, s)

/-- `BufferPoolManager::allocatePage`, after a frame has been acquired:
`DiskManager::AllocatePage` yields a fresh id, then reset, set id, pin,
read from disk, insert into the page table. -/
def allocFinish (s : BPM) (f : Nat) : Option (PageId × Nat) × BPM :=
  let id := s.next_page_id
  let s1 := { s with next_page_id := s.next_page_id + 1 }
  let p := { resetPage with page_id := id, pin_count := 1, data := s1.disk id }
  (some (id, f),
    { s1 with frames := updFrame s1.frames f p
              page_table := assocInsert s1.page_table id f })

/-- `BufferPoolManager::allocatePage`: acquire a frame from the free list
first, else a replacer victim (releasing its dirty contents), else fail. -/
def allocatePage (s : BPM) : Option (PageId × Nat) × BPM :=
  match s.free_list, LRUReplacer.Victim s.lru with
  | f :: rest, _ => allocFinish { s with free_list := rest } f
  | [], some (f, lru') => allocFinish (releaseDirty { s with lru := lru' } f) f
  | [], none => (none, s)

/-- `BufferPoolManager::NewPage`: delegates to `allocatePage` under the
latch. Returns the allocated page id (the out-parameter) and the frame. -/
def NewPage (s : BPM) : Option (PageId × Nat) × BPM :=
  allocatePage s

/-- A caller mutating a pinned frame's byte buffer through the handle's
`GetData()` pointer (spec shared-resource policy: legal while the pin is
held). Used to state write-back scenarios. -/
def writePinnedData (s : BPM) (f : Nat) (bytes : List Nat) : BPM :=
  { s with frames := updFrame s.frames f { s.frames f with data := bytes } }

/-- An arbitrary call against the LRU replacer, used to quantify over call
sequences. -/
inductive LRUOp (T : Type) where
  | ins (v : T)
  | victim
  | eraseOp (v : T)

/-- The replacer state after one call. -/
def LRUStep {T : Type} [DecidableEq T] (l : List T) : LRUOp T → List T
  | LRUOp.ins v => LRUReplacer.Insert l v
  | LRUOp.victim =>
    match LRUReplacer.Victim l with
    | none => l
    | some (_, l') => l'
  | LRUOp.eraseOp v => (LRUReplacer.Erase l v).2

/-- The replacer state after a sequence of calls, starting from the empty
replacer built by the constructor. -/
def LRURun {T : Type} [DecidableEq T] (ops : List (LRUOp T)) : List T :=
  List.foldl LRUStep ([] : List T) ops

/-! Concrete scenario states used to exercise the operations. -/

/-- A backing file whose every page reads as the empty buffer. -/
def zeroDisk : PageId → List Nat := fun _ => []

/-- A backing file on which distinct pages hold distinct bytes. -/
def diskA : PageId → List Nat := fun pid => [(pid + 10).toNat]

/-- A freshly constructed pool with a single frame. -/
def pool1 : BPM := initPool 1 zeroDisk

/-- Pool of one frame after NewPage (page 0 pinned in frame 0). -/
def poolPinned0 : BPM := (NewPage pool1).2

/-- Pool of one frame after NewPage then a clean unpin: page 0 sits in
frame 0 with pin count 0, and frame 0 is in the replacer. -/
def poolUnpinned0 : BPM := (UnpinPage poolPinned0 0 false).2

/-- Pool of one frame over diskA after NewPage (page 0), a caller write of
byte 1, and a dirty unpin: frame 0 is dirty for page 0 and evictable. -/
def poolDirty0 : BPM :=
  (UnpinPage (writePinnedData (NewPage (initPool 1 diskA)).2 0 [1]) 0 true).2

/-- poolDirty0 after a further NewPage (page 1): the dirty victim holding
page 0 is released and the frame is reused for page 1. -/
def poolEvicted0 : BPM := (NewPage poolDirty0).2

/-! Helper lemmas shared by the claim theorems. -/

theorem updFrame_same (fr : Nat → Page) (i : Nat) (p : Page) :
    updFrame fr i p i = p := by
  simp [updFrame]

theorem updFrame_other (fr : Nat → Page) (i j : Nat) (p : Page) (h : j ≠ i) :
    updFrame fr i p j = fr j := by
  simp [updFrame, h]

theorem assocFind_assocErase_self (m : List (PageId × Nat)) (k : PageId) :
    assocFind (assocErase m k) k = none := by
  induction m with
  | nil => rfl
  | cons e es ih =>
    by_cases h : e.1 = k
    · simpa [assocErase, h] using ih
    · simp [assocErase, assocFind, h, ih]

/-! Claim theorems. -/

/-- C1: the claim states that a FetchPage hit on a frame with pin count 0
erases the frame from the replacer before raising the pin count, so that
no frame with positive pin count is ever in the replacer (P3). The code
does not erase on the hit path: after NewPage, a clean UnpinPage and a
FetchPage hit, frame 0 has pin count 1 yet is still in the replacer. -/
theorem C1_fetch_hit_keeps_pinned_frame_in_replacer :
    (poolUnpinned0.frames 0).pin_count = 0
    ∧ 0 ∈ poolUnpinned0.lru
    ∧ assocFind poolUnpinned0.page_table 0 = some 0
    ∧ ((FetchPage poolUnpinned0 0).2.frames 0).pin_count = 1
    ∧ 0 ∈ (FetchPage poolUnpinned0 0).2.lru := by
  decide

/-- C2: the claim states that evicting a dirty victim writes it back,
clears the flag, and removes its id from both the dirty set and the page
table. The code's releaseDirty removes the page-table entry only: after
the eviction the victim's id 0 is still in the dirty set, and a later
FlushAllPages therefore writes the reusing page's bytes under the stale
id 0 and never writes them under their own id 1. -/
theorem C2_dirty_eviction_keeps_stale_dirty_set_entry :
    poolEvicted0.writes = [(0, [1])]
    ∧ (poolEvicted0.frames 0).is_dirty = false
    ∧ assocFind poolEvicted0.page_table 0 = none
    ∧ assocFind poolEvicted0.dirty_pages 0 = some 0
    ∧ (FlushAllPages
        (UnpinPage (writePinnedData poolEvicted0 0 [2]) 1 true).2).writes
        = [(0, [1]), (0, [2])]
    ∧ (FlushAllPages
        (UnpinPage (writePinnedData poolEvicted0 0 [2]) 1 true).2).disk 1
        = [11] := by
  decide

/-- C3: the claim states DeletePage returns true exactly on a successful
delete. The code returns false on every path: on a present page with pin
count 0 it performs the delete (page-table lookup fails afterwards, the
frame returns to the free list, the id is deallocated) yet still returns
false. -/
theorem C3_delete_page_returns_false_on_success :
    (DeletePage poolUnpinned0 0).1 = false
    ∧ assocFind (DeletePage poolUnpinned0 0).2.page_table 0 = none
    ∧ (DeletePage poolUnpinned0 0).2.free_list.length = 1
    ∧ (DeletePage poolUnpinned0 0).2.deallocated = [0] := by
  decide

/-- C4: the claim states FlushPage handles an absent page by returning
false without dereferencing the frame handle. The code dereferences the
still-null handle in its asserts before checking the found flag, modelled
as the none outcome: on a valid identifier absent from the page table the
call is undefined behaviour rather than a false return. -/
theorem C4_flush_page_absent_is_undefined_behaviour :
    (5 : PageId) ≠ INVALID_PAGE_ID
    ∧ assocFind pool1.page_table 5 = none
    ∧ FlushPage pool1 5 = none
    ∧ Option.map Prod.fst (FlushPage poolDirty0 0) = some true
    ∧ Option.map Prod.fst (FlushPage poolUnpinned0 0) = some false
    ∧ FlushPage pool1 INVALID_PAGE_ID = some (false, pool1) :=
  ⟨by decide, by decide, rfl, by decide, by decide, rfl⟩

/-- C5: when the free list and the replacer are both empty (all frames
pinned), FetchPage on a missing page and NewPage both return null and
leave the pool state unchanged, so no pinned frame is evicted. -/
theorem C5_pool_exhaustion_returns_null (s : BPM) (pid : PageId)
    (hfree : s.free_list = []) (hlru : s.lru = [])
    (hmiss : assocFind s.page_table pid = none) :
    FetchPage s pid = (none, s) ∧ NewPage s = (none, s) := by
  constructor
  · unfold FetchPage
    rw [hmiss, hfree, hlru]
    split <;> rfl
  · unfold NewPage allocatePage
    rw [hfree, hlru]
    rfl

/-- Witness for C5: a one-frame pool whose only frame is pinned by
NewPage is exhausted, and both operations return null on it. -/
theorem C5_pool_exhaustion_witness :
    FetchPage poolPinned0 7 = (none, poolPinned0)
    ∧ NewPage poolPinned0 = (none, poolPinned0) :=
  C5_pool_exhaustion_returns_null poolPinned0 7 (by decide) (by decide)
    (by decide)

/-- C6: UnpinPage returns true iff the page is present with positive pin
count, in which case the pin count drops by exactly one; at zero the frame
enters the replacer, a dirty unpin sets the flag and records the id in the
dirty set, and a clean unpin preserves a previously-set flag; on a false
return the state is unchanged. -/
theorem C6_unpin_page_contract (s : BPM) (pid : PageId) (d : Bool) :
    ((UnpinPage s pid d).1 = true ↔
      ∃ f, assocFind s.page_table pid = some f ∧ 0 < (s.frames f).pin_count)
    ∧ ((UnpinPage s pid d).1 = false → (UnpinPage s pid d).2 = s)
    ∧ (∀ f, assocFind s.page_table pid = some f →
        0 < (s.frames f).pin_count →
        ((UnpinPage s pid d).2.frames f).pin_count
            = (s.frames f).pin_count - 1
        ∧ ((UnpinPage s pid d).2.frames f).page_id = (s.frames f).page_id
        ∧ ((UnpinPage s pid d).2.frames f).data = (s.frames f).data
        ∧ (∀ j, j ≠ f → (UnpinPage s pid d).2.frames j = s.frames j)
        ∧ (UnpinPage s pid d).2.page_table = s.page_table
        ∧ (UnpinPage s pid d).2.free_list = s.free_list
        ∧ (if (s.frames f).pin_count = 1 then
            (UnpinPage s pid d).2.lru = LRUReplacer.Insert s.lru f
            ∧ ((UnpinPage s pid d).2.frames f).is_dirty
                = (d || (s.frames f).is_dirty)
            ∧ (UnpinPage s pid d).2.dirty_pages
                = (if d then assocInsert s.dirty_pages pid f
                   else s.dirty_pages)
          else
            (UnpinPage s pid d).2.lru = s.lru
            ∧ ((UnpinPage s pid d).2.frames f).is_dirty
                = (s.frames f).is_dirty
            ∧ (UnpinPage s pid d).2.dirty_pages = s.dirty_pages)) := by
  refine ⟨?_, ?_, ?_⟩
  · cases hf : assocFind s.page_table pid with
    | none => simp [UnpinPage, hf]
    | some f =>
      by_cases hp : 0 < (s.frames f).pin_count
      · by_cases hz : (s.frames f).pin_count - 1 = 0
        · simp [UnpinPage, hf, hp, hz]
        · simp [UnpinPage, hf, hp, hz]
      · simp [UnpinPage, hf, hp]
  · cases hf : assocFind s.page_table pid with
    | none => intro _; simp [UnpinPage, hf]
    | some f =>
      by_cases hp : 0 < (s.frames f).pin_count
      · by_cases hz : (s.frames f).pin_count - 1 = 0
        · simp [UnpinPage, hf, hp, hz]
        · simp [UnpinPage, hf, hp, hz]
      · simp [UnpinPage, hf, hp]
  · intro f hf hp
    by_cases hz : (s.frames f).pin_count = 1
    · have hz' : (s.frames f).pin_count - 1 = 0 := by omega
      cases d with
      | true =>
        simp [UnpinPage, hf, hp, hz', hz, updFrame]
        exact fun j h1 h2 => absurd h2 h1
      | false =>
        simp [UnpinPage, hf, hp, hz', hz, updFrame]
        exact fun j h1 h2 => absurd h2 h1
    · have hz' : ¬((s.frames f).pin_count - 1 = 0) := by omega
      simp [UnpinPage, hf, hp, hz', hz, updFrame]
      exact fun j h1 h2 => absurd h2 h1

/-- Witness for C6: in a one-frame pool with page 0 pinned once, a dirty
unpin succeeds, and the contract evaluates at that state. -/
theorem C6_unpin_page_contract_witness :
    (UnpinPage poolPinned0 0 true).1 = true := by
  have h := C6_unpin_page_contract poolPinned0 0 true
  exact h.1.mpr ⟨0, by decide, by decide⟩

theorem flushEntry_frames_eq (s : BPM) (e : PageId × Nat) (i : Nat) :
    ((flushEntry s e).frames i).page_id = (s.frames i).page_id
    ∧ ((flushEntry s e).frames i).data = (s.frames i).data
    ∧ (((flushEntry s e).frames i).is_dirty = true →
        (s.frames i).is_dirty = true) := by
  unfold flushEntry
  dsimp only
  split
  · by_cases h : i = e.2
    · subst h; simp [updFrame]
    · simp [updFrame, h]
  · exact ⟨rfl, rfl, id⟩

theorem flushEntry_clears_entry (s : BPM) (e : PageId × Nat) :
    ((flushEntry s e).frames e.2).is_dirty = false := by
  unfold flushEntry
  dsimp only
  split
  · simp [updFrame]
  · next h => simpa using h

theorem foldl_flush_dirty_mono (l : List (PageId × Nat)) (s : BPM) (i : Nat)
    (h : ((List.foldl flushEntry s l).frames i).is_dirty = true) :
    (s.frames i).is_dirty = true := by
  induction l generalizing s with
  | nil => exact h
  | cons a t ih => exact (flushEntry_frames_eq s a i).2.2 (ih (flushEntry s a) h)

theorem foldl_flush_clears (l : List (PageId × Nat)) (s : BPM)
    (e : PageId × Nat) (he : e ∈ l) :
    ((List.foldl flushEntry s l).frames e.2).is_dirty = false := by
  induction l generalizing s with
  | nil => cases he
  | cons a t ih =>
    rcases List.mem_cons.mp he with h | h
    · subst h
      by_contra hc
      simp only [Bool.not_eq_false] at hc
      have h2 := foldl_flush_dirty_mono t (flushEntry s e) e.2 hc
      rw [flushEntry_clears_entry] at h2
      exact Bool.noConfusion h2
    · exact ih (flushEntry s a) h

theorem flushEntry_writes (s : BPM) (e : PageId × Nat) :
    (flushEntry s e).writes =
      if (s.frames e.2).is_dirty = true then
        s.writes ++ [(e.1, (s.frames e.2).data)]
      else s.writes := by
  unfold flushEntry
  dsimp only
  split <;> rfl

theorem foldl_flush_writes (l : List (PageId × Nat)) (s : BPM)
    (w : PageId × List Nat)
    (hw : w ∈ (List.foldl flushEntry s l).writes) :
    w ∈ s.writes ∨ ∃ f, (w.1, f) ∈ l ∧ (s.frames f).is_dirty = true
      ∧ w.2 = (s.frames f).data := by
  induction l generalizing s with
  | nil => exact Or.inl hw
  | cons a t ih =>
    rcases ih (flushEntry s a) hw with h | ⟨f, hf, hd, hdata⟩
    · rw [flushEntry_writes] at h
      split at h
      · simp only [List.mem_append, List.mem_singleton] at h
        rcases h with h | h
        · exact Or.inl h
        · subst h
          right
          exact ⟨a.2, List.mem_cons_self a t, by assumption, rfl⟩
      · exact Or.inl h
    · right
      refine ⟨f, List.mem_cons_of_mem _ hf,
        (flushEntry_frames_eq s a f).2.2 hd, ?_⟩
      rw [hdata, (flushEntry_frames_eq s a f).2.1]

/-- C7: after FlushAllPages the dirty set is empty and every frame's dirty
flag is false, and only frames that were dirty are written; the invariant
that a set dirty flag implies membership in the dirty set is the
hypothesis. -/
theorem C7_flush_all_pages_clears_dirty (s : BPM)
    (hinv : ∀ i, i < s.pool_size → (s.frames i).is_dirty = true →
      ∃ e ∈ s.dirty_pages, e.2 = i) :
    (FlushAllPages s).dirty_pages = []
    ∧ (∀ i, i < s.pool_size → ((FlushAllPages s).frames i).is_dirty = false)
    ∧ (∀ w ∈ (FlushAllPages s).writes,
        w ∈ s.writes ∨ ∃ f, (w.1, f) ∈ s.dirty_pages
          ∧ (s.frames f).is_dirty = true ∧ w.2 = (s.frames f).data) := by
  refine ⟨rfl, ?_, ?_⟩
  · intro i hi
    show ((List.foldl flushEntry s s.dirty_pages).frames i).is_dirty = false
    by_cases hd : (s.frames i).is_dirty = true
    · obtain ⟨e, he, hei⟩ := hinv i hi hd
      have h := foldl_flush_clears s.dirty_pages s e he
      rw [hei] at h
      exact h
    · by_contra hc
      simp only [Bool.not_eq_false] at hc
      exact hd (foldl_flush_dirty_mono s.dirty_pages s i hc)
  · intro w hw
    exact foldl_flush_writes s.dirty_pages s w hw

/-- Witness for C7: applied to the one-frame pool whose frame is dirty for
page 0, FlushAllPages empties the dirty set and clears the flag. -/
theorem C7_flush_all_pages_witness :
    (FlushAllPages poolDirty0).dirty_pages = []
    ∧ (∀ i, i < poolDirty0.pool_size →
        ((FlushAllPages poolDirty0).frames i).is_dirty = false) := by
  have h := C7_flush_all_pages_clears_dirty poolDirty0 (by decide)
  exact ⟨h.1, h.2.1⟩

theorem erase_result_not_mem (l : List Nat) (v : Nat) (hnd : l.Nodup) :
    v ∉ (LRUReplacer.Erase l v).2 := by
  unfold LRUReplacer.Erase
  split
  · exact hnd.not_mem_erase
  · next h => exact h

/-- C8: DeletePage on a page present with pin count 0 removes the id from
the page table (a later lookup fails), erases the frame from the replacer,
erases the id from the dirty set without writing it back, deallocates the
page, resets the frame, and appends it to the free list, whose length
grows back by one. -/
theorem C8_delete_page_success_effects (s : BPM) (pid : PageId) (f : Nat)
    (hfind : assocFind s.page_table pid = some f)
    (hpin : (s.frames f).pin_count = 0)
    (hnd : s.lru.Nodup) :
    assocFind (DeletePage s pid).2.page_table pid = none
    ∧ f ∉ (DeletePage s pid).2.lru
    ∧ (DeletePage s pid).2.dirty_pages = assocErase s.dirty_pages pid
    ∧ (DeletePage s pid).2.writes = s.writes
    ∧ (DeletePage s pid).2.deallocated = s.deallocated ++ [pid]
    ∧ (DeletePage s pid).2.frames f = resetPage
    ∧ (DeletePage s pid).2.free_list = s.free_list ++ [f]
    ∧ (DeletePage s pid).2.free_list.length = s.free_list.length + 1 := by
  simp only [DeletePage, hfind]
  rw [if_pos hpin]
  dsimp only
  refine ⟨assocFind_assocErase_self _ _, erase_result_not_mem s.lru f hnd,
    rfl, rfl, rfl, updFrame_same _ _ _, rfl, by simp⟩

/-- Witness for C8: deleting page 0 from the one-frame pool where it is
unpinned makes its lookup fail, removes frame 0 from the replacer, and
grows the free list by one. -/
theorem C8_delete_page_success_effects_witness :
    assocFind (DeletePage poolUnpinned0 0).2.page_table 0 = none
    ∧ 0 ∉ (DeletePage poolUnpinned0 0).2.lru
    ∧ (DeletePage poolUnpinned0 0).2.free_list.length
        = poolUnpinned0.free_list.length + 1 := by
  have h := C8_delete_page_success_effects poolUnpinned0 0 0 (by decide)
    (by decide) (by decide)
  exact ⟨h.1, h.2.1, h.2.2.2.2.2.2.2⟩

theorem LRUStep_nodup {T : Type} [DecidableEq T] (l : List T) (op : LRUOp T)
    (h : l.Nodup) : (LRUStep l op).Nodup := by
  cases op with
  | ins v =>
    simp only [LRUStep]
    exact List.nodup_cons.mpr ⟨h.not_mem_erase, h.erase v⟩
  | victim =>
    simp only [LRUStep, LRUReplacer.Victim]
    cases hl : l.getLast? with
    | none => simp only [hl]; exact h
    | some v => simp only [hl]; exact (List.dropLast_sublist l).nodup h
  | eraseOp v =>
    simp only [LRUStep, LRUReplacer.Erase]
    split
    · exact h.erase v
    · exact h

theorem LRURun_nodup_aux {T : Type} [DecidableEq T] (ops : List (LRUOp T))
    (l : List T) (h : l.Nodup) : (List.foldl LRUStep l ops).Nodup := by
  induction ops generalizing l with
  | nil => exact h
  | cons a t ih => exact ih _ (LRUStep_nodup l a h)

/-- C9: the LRU replacer's Victim fails exactly on the empty replacer and
otherwise removes and returns the back of the sequence; Insert removes any
existing occurrence and prepends at the front; after any call sequence
from the empty replacer every value is present at most once. -/
theorem C9_lru_replacer_contract :
    (∀ l : List Nat, LRUReplacer.Victim l = none ↔ l = [])
    ∧ (∀ (l : List Nat) (h : l ≠ []),
        LRUReplacer.Victim l = some (l.getLast h, l.dropLast)
        ∧ l.dropLast ++ [l.getLast h] = l)
    ∧ (∀ (l : List Nat) (v : Nat),
        (LRUReplacer.Insert l v).head? = some v
        ∧ (∀ w, w ∈ LRUReplacer.Insert l v ↔ (w = v ∨ w ∈ l))
        ∧ (l.Nodup → (LRUReplacer.Insert l v).Nodup))
    ∧ (∀ ops : List (LRUOp Nat), (LRURun ops).Nodup) := by
  refine ⟨?_, ?_, ?_, ?_⟩
  · intro l
    unfold LRUReplacer.Victim
    cases hl : l.getLast? with
    | none =>
      simp only [hl]
      simpa using hl
    | some v =>
      simp only [hl]
      constructor
      · intro h; cases h
      · intro h
        subst h
        cases hl
  · intro l h
    constructor
    · unfold LRUReplacer.Victim
      rw [List.getLast?_eq_getLast_of_ne_nil h]
    · exact List.dropLast_append_getLast h
  · intro l v
    refine ⟨rfl, ?_, ?_⟩
    · intro w
      by_cases hw : w = v
      · subst hw
        simp [LRUReplacer.Insert]
      · simp only [LRUReplacer.Insert, List.mem_cons, hw, false_or]
        exact List.mem_erase_of_ne hw
    · intro hnd
      exact List.nodup_cons.mpr ⟨hnd.not_mem_erase, hnd.erase v⟩
  · intro ops
    exact LRURun_nodup_aux ops [] List.nodup_nil

/-- Witness for C9: on the two-element replacer the victim is the back
element, and inserting an existing value keeps it present once. -/
theorem C9_lru_replacer_contract_witness :
    LRUReplacer.Victim ([3, 5] : List Nat) = some (5, [3])
    ∧ (5 : Nat) ∈ LRUReplacer.Insert [3] 5 := by
  have h := C9_lru_replacer_contract
  constructor
  · have h2 := (h.2.1 [3, 5] (by decide)).1
    simpa using h2
  · exact ((h.2.2.1 [3] 5).2.1 5).mpr (Or.inl rfl)

/-- C10: a FetchPage hit only increments the mapped frame's pin count by
one; the frame's identifier, dirty flag and buffer, all other frames, the
page table, free list, replacer, dirty set and disk-manager state are
unchanged. -/
theorem C10_fetch_hit_frame_effect (s : BPM) (pid : PageId) (f : Nat)
    (hvalid : ¬(pid = INVALID_PAGE_ID))
    (hfind : assocFind s.page_table pid = some f) :
    (FetchPage s pid).1 = some f
    ∧ ((FetchPage s pid).2.frames f).pin_count = (s.frames f).pin_count + 1
    ∧ ((FetchPage s pid).2.frames f).page_id = (s.frames f).page_id
    ∧ ((FetchPage s pid).2.frames f).is_dirty = (s.frames f).is_dirty
    ∧ ((FetchPage s pid).2.frames f).data = (s.frames f).data
    ∧ (∀ j, j ≠ f → (FetchPage s pid).2.frames j = s.frames j)
    ∧ (FetchPage s pid).2.page_table = s.page_table
    ∧ (FetchPage s pid).2.free_list = s.free_list
    ∧ (FetchPage s pid).2.lru = s.lru
    ∧ (FetchPage s pid).2.dirty_pages = s.dirty_pages
    ∧ (FetchPage s pid).2.disk = s.disk
    ∧ (FetchPage s pid).2.writes = s.writes
    ∧ (FetchPage s pid).2.next_page_id = s.next_page_id
    ∧ (FetchPage s pid).2.deallocated = s.deallocated := by
  simp [FetchPage, hvalid, hfind, updFrame]
  exact fun j h1 h2 => absurd h2 h1

/-- Witness for C10: a hit on page 0 of the one-frame pool with the page
unpinned returns frame 0 and raises its pin count from 0 to 1. -/
theorem C10_fetch_hit_frame_effect_witness :
    (FetchPage poolUnpinned0 0).1 = some 0
    ∧ ((FetchPage poolUnpinned0 0).2.frames 0).pin_count
        = (poolUnpinned0.frames 0).pin_count + 1 := by
  have h := C10_fetch_hit_frame_effect poolUnpinned0 0 0 (by decide) (by decide)
  exact ⟨h.1, h.2.1⟩

end cmudb
